import Mathlib

/-!
# Verification of the client generation/history lifecycle

A shallow embedding of `src/hooks/use-image-generation.ts`: the data model
(`MediaResult`, `ProviderTiming`, `GenerationHistoryEntry`, the in-flight
generation record) and the operations of the lifecycle controller
(`saveGenerationToHistory`, `startGeneration`, `deleteGeneration`,
`deleteImage`, rehydration via `loadSavedGenerations`).

Network effects are modelled by passing the per-provider outcomes (and their
arrival order) as explicit inputs; the single-threaded event loop of the
browser is modelled by folding the settlement handlers over that arrival
list.  JS `Map`s and keyed records become association lists with
replace-or-append update, matching insertion-order semantics.
-/

/-- The provider keys of `lib/provider-config` (the registry maps the two
backends `replicate` and `openai`, as used throughout `src/components` and
the API routes). -/
inductive ProviderKey
  | replicate
  | openai
deriving DecidableEq, Repr

/-- Modelled from the spec: `lib/provider-config.ts` itself is not among the
source files; the spec fixes "a fixed, small set (e.g. two providers)" and a
"fixed provider priority list".  The components render replicate first, then
openai. -/
def PROVIDER_ORDER : List ProviderKey := [ProviderKey.replicate, ProviderKey.openai]

/-- The media kinds of `lib/media-storage` ("enumerated
{image, audio, video, model, other}" per the data model). -/
inductive MediaType
  | image
  | audio
  | video
  | model
  | other
deriving DecidableEq, Repr

/-- `MediaResult` of `lib/media-types` (src/unnamed/part_001): provider,
base64 `content` or null, model id, media kind and the stored path/url.
The `image`/`imagePath`/`imageUrl` aliases kept for backward compatibility
mirror these fields and are omitted. -/
structure MediaResult where
  provider : ProviderKey
  content : Option String
  modelId : String
  mediaType : MediaType
  mediaPath : Option String
  mediaUrl : Option String
deriving DecidableEq, Repr

/-- `MediaError` of `lib/media-types`, with the `errorType` the hook attaches
when recording a failure. -/
structure MediaError where
  provider : ProviderKey
  message : String
  errorType : String
deriving DecidableEq, Repr

/-- `ProviderTiming` of `lib/media-types`: `completionTime` and `elapsed`
are optional and absent at creation. -/
structure ProviderTiming where
  startTime : Nat
  completionTime : Option Nat
  elapsed : Option Int
deriving DecidableEq, Repr

/-- A JS keyed record/`Map` over provider keys: an association list where
updating an existing key replaces in place and a new key is appended,
matching JS insertion-order semantics. -/
abbrev ProviderRecord (α : Type) := List (ProviderKey × α)

/-- `record[k] = v` / `map.set(k, v)`: replace the slot if the key is
present, append otherwise. -/
def recordSet {α : Type} (m : ProviderRecord α) (k : ProviderKey) (v : α) : ProviderRecord α :=
  if m.any (fun kv => kv.1 == k) then
    m.map (fun kv => if kv.1 == k then (k, v) else kv)
  else
    m ++ [(k, v)]

/-- `record[k]` / `map.get(k)`. -/
def recordGet {α : Type} (m : ProviderRecord α) (k : ProviderKey) : Option α :=
  (m.find? (fun kv => kv.1 == k)).map (fun kv => kv.2)

/-- `map.has(k)`. -/
def recordHas {α : Type} (m : ProviderRecord α) (k : ProviderKey) : Bool :=
  m.any (fun kv => kv.1 == k)

/-- Modelled from the spec: `initializeProviderRecord` of
`lib/provider-config.ts` (not among the source files) produces the initial
per-provider record; no claim observes its contents (the hook overwrites the
timings with fresh start times before use), so it is the empty record. -/
def initProviderRecord {α : Type} : ProviderRecord α := []

/-- `GenerationHistoryEntry` of `use-image-generation.ts`. -/
structure GenerationHistoryEntry where
  id : String
  prompt : String
  timestamp : Nat
  images : List MediaResult
  errors : List MediaError
  timings : ProviderRecord ProviderTiming
  failedProviders : List ProviderKey
deriving DecidableEq, Repr

/-- The in-flight generation record `currentGenerationRef.current`: like a
history entry but with a nullable id and the images kept in a
provider-keyed `Map`. -/
structure CurrentGeneration where
  id : Option String
  prompt : String
  timestamp : Nat
  images : ProviderRecord MediaResult
  errors : List MediaError
  timings : ProviderRecord ProviderTiming
  failedProviders : List ProviderKey
deriving DecidableEq, Repr

/-- The reset value of the in-flight record (null id, empty collections). -/
def emptyCurrentGeneration : CurrentGeneration :=
  { id := none
    prompt := ""
    timestamp := 0
    images := []
    errors := []
    timings := initProviderRecord
    failedProviders := [] }

/-- JS truthiness of a nullable string: neither null nor the empty string. -/
def strTruthy : Option String → Bool
  | none => false
  | some s => s ≠ ""

/-- `PROVIDER_ORDER.filter((p) => images.has(p)).map((p) => images.get(p)!)`:
the image array of a finalized entry, normalized to provider priority order
(`saveGenerationToHistory`, lines 321–325). -/
def imageArrayOf (images : ProviderRecord MediaResult) : List MediaResult :=
  (PROVIDER_ORDER.filter (fun p => recordHas images p)).filterMap
    (fun p => recordGet images p)

/-- The history entry built at finalize time from the in-flight record
(`saveGenerationToHistory`, lines 329–337). -/
def mkHistoryEntry (c : CurrentGeneration) (id : String) (imgs : List MediaResult) :
    GenerationHistoryEntry :=
  { id := id
    prompt := c.prompt
    timestamp := c.timestamp
    images := imgs
    errors := c.errors
    timings := c.timings
    failedProviders := c.failedProviders }

/-- The `setGenerationHistory` updater of `saveGenerationToHistory`
(lines 339–370): if an entry with the same id exists, replace it only when
the new entry has strictly more images; otherwise prepend the new entry. -/
def updateHistory (history : List GenerationHistoryEntry) (newEntry : GenerationHistoryEntry) :
    List GenerationHistoryEntry :=
  match history.findIdx? (fun e => e.id == newEntry.id) with
  | some i =>
    match history.get? i with
    | some existing =>
      if newEntry.images.length > existing.images.length then
        history.set i newEntry
      else
        history
    | none => history
  | none => newEntry :: history

/-- The outcome of `saveGenerationToHistory`: the updated history list, the
in-flight record afterwards, and the entry handed to `setGenerationHistory`
when one was constructed. -/
structure SaveResult where
  history : List GenerationHistoryEntry
  current : CurrentGeneration
  savedEntry : Option GenerationHistoryEntry
deriving DecidableEq, Repr

/-- `saveGenerationToHistory` (lines 310–397): finalize the in-flight record
into the history list.  The record is consulted only when its id is truthy
and its image map is non-empty; an entry is stored only when some image has
non-null content; the in-flight record is reset only inside the outer
truthy-and-non-empty branch. -/
def saveGenerationToHistory (current : CurrentGeneration)
    (history : List GenerationHistoryEntry) : SaveResult :=
  match current.id with
  | some id =>
    if id ≠ "" ∧ current.images.length > 0 then
      let imageArray := imageArrayOf current.images
      if imageArray.any (fun img => img.content.isSome) then
        let entry := mkHistoryEntry current id imageArray
        { history := updateHistory history entry
          current := emptyCurrentGeneration
          savedEntry := some entry }
      else
        { history := history, current := emptyCurrentGeneration, savedEntry := none }
    else
      { history := history, current := current, savedEntry := none }
  | none => { history := history, current := current, savedEntry := none }

/-- The settlement of one provider request inside `startGeneration`'s helper
`generateImage` (lines 503–668), as seen by the in-flight record: either the
`/api/generate-images` call resolved ok (carrying the optional base64 image,
stored path/url, the server-issued generation id and the completion time) or
it failed and the catch block records the error. -/
inductive ProviderOutcome
  | ok (image : Option String) (imagePath : Option String) (imageUrl : Option String)
      (generationId : Option String) (completionTime : Nat)
  | err (message : String) (errorType : String)
deriving DecidableEq, Repr

/-- Whether an outcome is a resolved response. -/
def ProviderOutcome.isOk : ProviderOutcome → Bool
  | .ok _ _ _ _ _ => true
  | .err _ _ => false

/-- The server-issued generation id carried by an outcome, when truthy
(the hook's guard is `if (data.generationId)`). -/
def ProviderOutcome.carriedId : ProviderOutcome → Option String
  | .ok _ _ _ generationId _ => if strTruthy generationId then generationId else none
  | .err _ _ => none

/-- One settlement's mutations of the in-flight record (`generateImage`,
try branch lines 541–615 and catch branch lines 617–667).  The second
component logs the providers whose `timings` slot this step assigned —
only the success branch writes a timing. -/
def applySettle (tempClientId : String) (startTime : Nat)
    (modelIdOf : ProviderKey → String) (cur : CurrentGeneration)
    (p : ProviderKey) (o : ProviderOutcome) : CurrentGeneration × List ProviderKey :=
  match o with
  | .ok image imagePath imageUrl generationId completionTime =>
    let newTiming : ProviderTiming :=
      { startTime := startTime
        completionTime := some completionTime
        elapsed := some ((completionTime : Int) - (startTime : Int)) }
    let cur1 := { cur with timings := recordSet cur.timings p newTiming }
    let cur2 :=
      if strTruthy generationId ∧ cur1.id = some tempClientId then
        { cur1 with id := generationId }
      else
        cur1
    let mediaResult : MediaResult :=
      { provider := p
        content := image
        modelId := modelIdOf p
        mediaType := MediaType.image
        mediaPath := imagePath
        mediaUrl := imageUrl }
    ({ cur2 with images := recordSet cur2.images p mediaResult }, [p])
  | .err message errorType =>
    let errorInfo : MediaError := { provider := p, message := message, errorType := errorType }
    ({ cur with
        failedProviders := cur.failedProviders ++ [p]
        errors := cur.errors ++ [errorInfo] }, [])

/-- Fold the settlement handlers over the arrival order of the provider
responses, accumulating the timing-write log. -/
def settleAllLog (tempClientId : String) (startTime : Nat)
    (modelIdOf : ProviderKey → String) (cur : CurrentGeneration) :
    List (ProviderKey × ProviderOutcome) → CurrentGeneration × List ProviderKey
  | [] => (cur, [])
  | a :: rest =>
    let step := applySettle tempClientId startTime modelIdOf cur a.1 a.2
    let restResult := settleAllLog tempClientId startTime modelIdOf step.1 rest
    (restResult.1, step.2 ++ restResult.2)

/-- The in-flight record after all provider requests have settled. -/
def settleAll (tempClientId : String) (startTime : Nat)
    (modelIdOf : ProviderKey → String) (cur : CurrentGeneration)
    (arrivals : List (ProviderKey × ProviderOutcome)) : CurrentGeneration :=
  (settleAllLog tempClientId startTime modelIdOf cur arrivals).1

/-- The temporary client identifier
`temp-${timestamp}-${Math.random().toString(36).substring(2, 5)}`
(line 443); the random suffix is an input. -/
def tempClientIdOf (timestamp : Nat) (suffix : String) : String :=
  "temp-" ++ toString timestamp ++ "-" ++ suffix

/-- `Object.fromEntries(providers.map((provider) => [provider,
{ startTime: timestamp }]))` (lines 493–495): the initial timings record,
one slot per selected provider holding only the start time. -/
def initialTimings (providers : List ProviderKey) (timestamp : Nat) :
    ProviderRecord ProviderTiming :=
  providers.map (fun p => (p, { startTime := timestamp, completionTime := none, elapsed := none }))

/-- The controller state owned by the hook: the `isGeneratingRef` flag, the
in-flight record and the history list. -/
structure HookState where
  isGenerating : Bool
  current : CurrentGeneration
  history : List GenerationHistoryEntry
deriving DecidableEq, Repr

/-- Everything one `startGeneration` call produces: the controller state
after the call settles, the `{success, error?}` return value, the providers
to which requests were issued, and the entry the finalize step of this call
constructed (if any). -/
structure RunResult where
  state : HookState
  success : Bool
  error : Option String
  requested : List ProviderKey
  finalized : Option GenerationHistoryEntry
deriving DecidableEq, Repr

/-- `startGeneration(prompt, providers, providerToModel)` (lines 399–730),
run to quiescence: validation, the defensive save of any stale in-flight
record, creation of the new record under a temporary client id, settlement
of every provider request in the given arrival order, and the finalize in
the `finally` block (clear the generating flag, save to history).  The
outer catch is unreachable from provider failures because `generateImage`
catches its own errors, so a run that passes validation returns success. -/
def startGenerationRun (st : HookState) (prompt : String)
    (providers : List ProviderKey) (modelIdOf : ProviderKey → String)
    (timestamp : Nat) (suffix : String)
    (arrivals : List (ProviderKey × ProviderOutcome)) : RunResult :=
  if providers.length = 0 then
    { state := st
      success := false
      error := some "Please select at least one provider to generate images."
      requested := []
      finalized := none }
  else if st.isGenerating then
    { state := st
      success := false
      error := some "A generation is already in progress. Please wait for it to complete."
      requested := []
      finalized := none }
  else
    let save1 := saveGenerationToHistory st.current st.history
    let tempId := tempClientIdOf timestamp suffix
    let cur0 : CurrentGeneration :=
      { id := some tempId
        prompt := prompt
        timestamp := timestamp
        images := []
        errors := []
        timings := initialTimings providers timestamp
        failedProviders := [] }
    let curFinal := settleAll tempId timestamp modelIdOf cur0 arrivals
    let save2 := saveGenerationToHistory curFinal save1.history
    { state := { isGenerating := false, current := save2.current, history := save2.history }
      success := true
      error := none
      requested := providers
      finalized := save2.savedEntry }

/-- `deleteGeneration(generationId)` (lines 192–216): look the entry up in
the local history first; only when found is the HTTP delete issued, and the
local entry is removed only on a confirmed ok response.  Returns the new
history and whether a request was issued. -/
def deleteGeneration (history : List GenerationHistoryEntry) (generationId : String)
    (serverOk : Bool) : List GenerationHistoryEntry × Bool :=
  match history.find? (fun e => e.id == generationId) with
  | none => (history, false)
  | some _ =>
    if serverOk then
      (history.filter (fun e => e.id != generationId), true)
    else
      (history, true)

/-- The `setGenerationHistory` updater of `deleteImage` (lines 277–298):
drop the targeted provider's image from the matching entry; drop the whole
entry when no images remain. -/
def deleteImageLocal (history : List GenerationHistoryEntry) (generationId : String)
    (provider : ProviderKey) : List GenerationHistoryEntry :=
  (history.map (fun entry =>
    if entry.id == generationId then
      let updatedImages := entry.images.filter (fun img => img.provider != provider)
      if updatedImages.length > 0 then
        some { entry with images := updatedImages }
      else
        none
    else
      some entry)).filterMap id

/-- The server's response to one delete attempt: `response.ok` or a failure
status code. -/
inductive DeleteResponse
  | ok
  | fail (status : Nat)
deriving DecidableEq, Repr

/-- `const MAX_RETRIES = 3` (line 220). -/
def MAX_RETRIES : Nat := 3

/-- `const RETRY_DELAY = 1000` (line 221). -/
def RETRY_DELAY : Nat := 1000

/-- What one run of `deleteImage` (lines 219–307) produces: the history
after the run, the number of HTTP delete attempts made, and the total delay
spent waiting between attempts. -/
structure DeleteRun where
  history : List GenerationHistoryEntry
  attempts : Nat
  totalDelay : Nat
deriving DecidableEq, Repr

/-- `deleteImage(generationId, provider, retryCount)` from a given retry
count, with `responses n` the server's answer to the attempt at retry count
`n`: an ok response applies the local update; a 404 with retries remaining
schedules another attempt after `RETRY_DELAY`; any other failure stops. -/
def deleteImageFrom (responses : Nat → DeleteResponse)
    (history : List GenerationHistoryEntry) (generationId : String)
    (provider : ProviderKey) (retryCount : Nat) : DeleteRun :=
  match responses retryCount with
  | .ok =>
    { history := deleteImageLocal history generationId provider
      attempts := 1
      totalDelay := 0 }
  | .fail status =>
    if h : status = 404 ∧ retryCount < MAX_RETRIES then
      let rest := deleteImageFrom responses history generationId provider (retryCount + 1)
      { history := rest.history
        attempts := rest.attempts + 1
        totalDelay := rest.totalDelay + RETRY_DELAY }
    else
      { history := history, attempts := 1, totalDelay := 0 }
termination_by MAX_RETRIES - retryCount
decreasing_by omega

/-- `deleteImage(generationId, provider)` as called by the presentation
layer (retry count 0). -/
def deleteImageRun (responses : Nat → DeleteResponse)
    (history : List GenerationHistoryEntry) (generationId : String)
    (provider : ProviderKey) : DeleteRun :=
  deleteImageFrom responses history generationId provider 0

/-- A media item as returned by `GET /api/generations`
(`loadSavedGenerations`, lines 129–144 read these fields). -/
structure ServerMediaItem where
  provider : ProviderKey
  modelId : Option String
  mediaType : MediaType
  mediaPath : Option String
  mediaUrl : Option String
deriving DecidableEq, Repr

/-- A generation as returned by `GET /api/generations` with its nested
media items. -/
structure ServerGeneration where
  id : String
  prompt : String
  timestamp : Nat
  mediaItems : List ServerMediaItem
deriving DecidableEq, Repr

/-- The conversion of one server generation into a history entry
(`loadSavedGenerations`, lines 126–159): every media item becomes a
rehydrated `MediaResult` with null content, the timings are fresh empty
records, and no filtering of any kind is applied. -/
def convertGeneration (gen : ServerGeneration) : GenerationHistoryEntry :=
  { id := gen.id
    prompt := gen.prompt
    timestamp := gen.timestamp
    images := gen.mediaItems.map (fun item =>
      { provider := item.provider
        content := none
        modelId := item.modelId.getD ""
        mediaType := item.mediaType
        mediaPath := item.mediaPath
        mediaUrl := item.mediaUrl })
    errors := []
    timings := initProviderRecord
    failedProviders := [] }

/-- `loadSavedGenerations` (lines 108–177): convert every server generation
and sort newest first (`sort((a, b) => b.timestamp - a.timestamp)`; JS sort
is stable, and a stable sort under a total preorder comparator is unique,
so insertion sort computes the same list). -/
def loadSavedGenerations (gens : List ServerGeneration) : List GenerationHistoryEntry :=
  (gens.map convertGeneration).insertionSort (fun a b => b.timestamp ≤ a.timestamp)

/-! ## Basic lemmas about the settlement fold -/

theorem settleAll_nil (t : String) (ts : Nat) (f : ProviderKey → String)
    (cur : CurrentGeneration) : settleAll t ts f cur [] = cur := rfl

theorem settleAll_cons (t : String) (ts : Nat) (f : ProviderKey → String)
    (cur : CurrentGeneration) (a : ProviderKey × ProviderOutcome)
    (l : List (ProviderKey × ProviderOutcome)) :
    settleAll t ts f cur (a :: l) = settleAll t ts f (applySettle t ts f cur a.1 a.2).1 l := rfl

theorem settleAll_append (t : String) (ts : Nat) (f : ProviderKey → String)
    (l₁ l₂ : List (ProviderKey × ProviderOutcome)) :
    ∀ cur, settleAll t ts f cur (l₁ ++ l₂) = settleAll t ts f (settleAll t ts f cur l₁) l₂ := by
  induction l₁ with
  | nil => intro cur; rfl
  | cons a l ih => intro cur; simp only [List.cons_append, settleAll_cons]; exact ih _

theorem settleLog_cons (t : String) (ts : Nat) (f : ProviderKey → String)
    (cur : CurrentGeneration) (a : ProviderKey × ProviderOutcome)
    (l : List (ProviderKey × ProviderOutcome)) :
    (settleAllLog t ts f cur (a :: l)).2 =
      (applySettle t ts f cur a.1 a.2).2 ++
        (settleAllLog t ts f (applySettle t ts f cur a.1 a.2).1 l).2 := rfl

/-- A failed settlement only appends to `failedProviders` and `errors`. -/
theorem applySettle_err (t : String) (ts : Nat) (f : ProviderKey → String)
    (cur : CurrentGeneration) (p : ProviderKey) (message errorType : String) :
    applySettle t ts f cur p (.err message errorType) =
      ({ cur with
          failedProviders := cur.failedProviders ++ [p]
          errors := cur.errors ++ [⟨p, message, errorType⟩] }, []) := rfl

/-- A settlement never resets the in-flight id once it differs from the
temporary client id (the guard `current.id === tempClientId`). -/
theorem applySettle_id_of_ne (t : String) (ts : Nat) (f : ProviderKey → String)
    (cur : CurrentGeneration) (p : ProviderKey) (o : ProviderOutcome)
    (h : cur.id ≠ some t) : (applySettle t ts f cur p o).1.id = cur.id := by
  cases o with
  | ok image imagePath imageUrl generationId completionTime =>
    simp only [applySettle]
    split
    · next hc => exact absurd hc.2 h
    · rfl
  | err message errorType => rfl

/-- Once the in-flight id differs from the temporary client id, settling
further responses leaves it unchanged. -/
theorem settleAll_id_of_ne (t : String) (ts : Nat) (f : ProviderKey → String)
    (l : List (ProviderKey × ProviderOutcome)) :
    ∀ cur, cur.id ≠ some t → (settleAll t ts f cur l).id = cur.id := by
  induction l with
  | nil => intro cur _; rfl
  | cons a l ih =>
    intro cur h
    rw [settleAll_cons, ih _ (by rw [applySettle_id_of_ne t ts f cur a.1 a.2 h]; exact h)]
    exact applySettle_id_of_ne t ts f cur a.1 a.2 h

/-! ## C10: deleteGeneration with an unknown identifier -/

/-- C10: Calling `deleteGeneration` with an identifier not present in the
local history list is a complete no-op: no HTTP delete request is issued to
the persistence collaborator and the history list is unchanged. -/
theorem deleteGeneration_unknown_id_noop (history : List GenerationHistoryEntry)
    (generationId : String) (serverOk : Bool)
    (h : ∀ e ∈ history, e.id ≠ generationId) :
    deleteGeneration history generationId serverOk = (history, false) := by
  unfold deleteGeneration
  have hfind : history.find? (fun e => e.id == generationId) = none := by
    rw [List.find?_eq_none]
    intro e he
    simpa using h e he
  rw [hfind]

/-- Witness for C10 at a concrete history whose single entry has a
different id. -/
theorem deleteGeneration_unknown_id_noop_witness :
    deleteGeneration [⟨"g0", "a fox", 7, [], [], [], []⟩] "g1" true =
      ([⟨"g0", "a fox", 7, [], [], [], []⟩], false) :=
  deleteGeneration_unknown_id_noop [⟨"g0", "a fox", 7, [], [], [], []⟩] "g1" true (by decide)

/-! ## C3: startGeneration while a generation is in progress -/

/-- C3: If `startGeneration` is called while a generation is already in
progress, it returns `{success:false}` with an error message, issues no
provider requests, and leaves the controller state — the in-flight record
and the history list — unchanged. -/
theorem startGeneration_while_pending_rejected (st : HookState) (prompt : String)
    (providers : List ProviderKey) (modelIdOf : ProviderKey → String)
    (timestamp : Nat) (suffix : String)
    (arrivals : List (ProviderKey × ProviderOutcome))
    (h : st.isGenerating = true) :
    (startGenerationRun st prompt providers modelIdOf timestamp suffix arrivals).state = st ∧
    (startGenerationRun st prompt providers modelIdOf timestamp suffix arrivals).success = false ∧
    (startGenerationRun st prompt providers modelIdOf timestamp suffix arrivals).error.isSome = true ∧
    (startGenerationRun st prompt providers modelIdOf timestamp suffix arrivals).requested = [] ∧
    (startGenerationRun st prompt providers modelIdOf timestamp suffix arrivals).finalized = none := by
  unfold startGenerationRun
  by_cases hp : providers.length = 0 <;> simp [hp, h]

/-- Witness for C3: a concrete pending controller state rejects a new
submission unchanged. -/
theorem startGeneration_while_pending_rejected_witness :
    (startGenerationRun ⟨true, emptyCurrentGeneration, []⟩ "a red fox"
        [ProviderKey.replicate] (fun _ => "flux") 100 "abc"
        [(ProviderKey.replicate, .ok (some "img") none none (some "db1") 200)]).state =
      ⟨true, emptyCurrentGeneration, []⟩ :=
  (startGeneration_while_pending_rejected ⟨true, emptyCurrentGeneration, []⟩ "a red fox"
    [ProviderKey.replicate] (fun _ => "flux") 100 "abc"
    [(ProviderKey.replicate, .ok (some "img") none none (some "db1") 200)] rfl).1


/-! ## C7: deleteImage retry policy -/

/-- Unfolding `deleteImageFrom` on an ok response: one attempt, local
update applied, no delay. -/
theorem deleteImageFrom_ok (responses : Nat → DeleteResponse)
    (history : List GenerationHistoryEntry) (generationId : String)
    (provider : ProviderKey) (retryCount : Nat)
    (h : responses retryCount = .ok) :
    deleteImageFrom responses history generationId provider retryCount =
      ⟨deleteImageLocal history generationId provider, 1, 0⟩ := by
  rw [deleteImageFrom, h]

/-- Unfolding `deleteImageFrom` on a 404 with retries remaining: recurse at
the next retry count, one more attempt, one more delay. -/
theorem deleteImageFrom_retry (responses : Nat → DeleteResponse)
    (history : List GenerationHistoryEntry) (generationId : String)
    (provider : ProviderKey) (retryCount : Nat)
    (h : responses retryCount = .fail 404) (hlt : retryCount < MAX_RETRIES) :
    deleteImageFrom responses history generationId provider retryCount =
      ⟨(deleteImageFrom responses history generationId provider (retryCount + 1)).history,
        (deleteImageFrom responses history generationId provider (retryCount + 1)).attempts + 1,
        (deleteImageFrom responses history generationId provider (retryCount + 1)).totalDelay +
          RETRY_DELAY⟩ := by
  rw [deleteImageFrom, h]
  exact dif_pos ⟨rfl, hlt⟩

/-- Unfolding `deleteImageFrom` on a failure that is not retried (non-404,
or the retry budget is exhausted): one attempt, history unchanged. -/
theorem deleteImageFrom_stop (responses : Nat → DeleteResponse)
    (history : List GenerationHistoryEntry) (generationId : String)
    (provider : ProviderKey) (retryCount : Nat) (status : Nat)
    (h : responses retryCount = .fail status)
    (hstop : ¬(status = 404 ∧ retryCount < MAX_RETRIES)) :
    deleteImageFrom responses history generationId provider retryCount =
      ⟨history, 1, 0⟩ := by
  rw [deleteImageFrom, h]
  exact dif_neg hstop

/-- The retry policy of `deleteImage` from an arbitrary retry count, by
induction on the remaining retry budget: at least one and at most
`max 1 (MAX_RETRIES + 1 - retryCount)` attempts, every attempt that was
followed by another one received a 404, and the total delay is one
`RETRY_DELAY` per retry. -/
theorem deleteImageFrom_spec (responses : Nat → DeleteResponse)
    (history : List GenerationHistoryEntry) (generationId : String)
    (provider : ProviderKey) :
    ∀ fuel retryCount, MAX_RETRIES + 1 - retryCount ≤ fuel →
      1 ≤ (deleteImageFrom responses history generationId provider retryCount).attempts ∧
      (deleteImageFrom responses history generationId provider retryCount).attempts ≤
        max 1 (MAX_RETRIES + 1 - retryCount) ∧
      (∀ j, j + 1 < (deleteImageFrom responses history generationId provider retryCount).attempts →
        responses (retryCount + j) = .fail 404) ∧
      (deleteImageFrom responses history generationId provider retryCount).totalDelay =
        ((deleteImageFrom responses history generationId provider retryCount).attempts - 1) *
          RETRY_DELAY := by
  intro fuel
  induction fuel with
  | zero =>
    intro rc hrc
    have hbig : MAX_RETRIES < rc := by
      simp only [MAX_RETRIES] at *; omega
    cases hresp : responses rc with
    | ok =>
      rw [deleteImageFrom_ok responses history generationId provider rc hresp]
      exact ⟨le_refl 1, le_max_left 1 _, fun j hj => absurd hj (by simp), by simp⟩
    | fail status =>
      rw [deleteImageFrom_stop responses history generationId provider rc status hresp
        (by omega)]
      exact ⟨le_refl 1, le_max_left 1 _, fun j hj => absurd hj (by simp), by simp⟩
  | succ fuel ih =>
    intro rc hrc
    cases hresp : responses rc with
    | ok =>
      rw [deleteImageFrom_ok responses history generationId provider rc hresp]
      exact ⟨le_refl 1, le_max_left 1 _, fun j hj => absurd hj (by simp), by simp⟩
    | fail status =>
      by_cases hcond : status = 404 ∧ rc < MAX_RETRIES
      · obtain ⟨h404, hlt⟩ := hcond
        subst h404
        rw [deleteImageFrom_retry responses history generationId provider rc hresp hlt]
        obtain ⟨h1, h2, h3, h4⟩ := ih (rc + 1) (by omega)
        dsimp only
        refine ⟨by omega, ?_, ?_, ?_⟩
        · have hmax : max 1 (MAX_RETRIES + 1 - (rc + 1)) = MAX_RETRIES - rc := by
            simp only [MAX_RETRIES] at hlt ⊢
            omega
          rw [hmax] at h2
          have : max 1 (MAX_RETRIES + 1 - rc) = MAX_RETRIES + 1 - rc := by
            simp only [MAX_RETRIES] at hlt ⊢
            omega
          omega
        · intro j hj
          cases j with
          | zero => simpa using hresp
          | succ j =>
            have hj2 : j + 1 <
                (deleteImageFrom responses history generationId provider (rc + 1)).attempts := by
              omega
            have harith : rc + (j + 1) = rc + 1 + j := by omega
            rw [harith]
            exact h3 j hj2
        · rw [h4]
          simp only [RETRY_DELAY] at *
          omega
      · rw [deleteImageFrom_stop responses history generationId provider rc status hresp hcond]
        exact ⟨le_refl 1, le_max_left 1 _, fun j hj => absurd hj (by simp), by simp⟩

/-- C7: `deleteImage` makes at most `MAX_RETRIES` (3) additional attempts
beyond the first; every attempt that was followed by a retry had received a
404 response — so a failure with any other status is never retried — and the
time spent waiting is exactly one `RETRY_DELAY` (1000 ms) per retry. -/
theorem deleteImage_retry_only_on_404 (responses : Nat → DeleteResponse)
    (history : List GenerationHistoryEntry) (generationId : String)
    (provider : ProviderKey) :
    (deleteImageRun responses history generationId provider).attempts ≤ MAX_RETRIES + 1 ∧
    (∀ k, k + 1 < (deleteImageRun responses history generationId provider).attempts →
      responses k = .fail 404) ∧
    (deleteImageRun responses history generationId provider).totalDelay =
      ((deleteImageRun responses history generationId provider).attempts - 1) * RETRY_DELAY := by
  obtain ⟨h1, h2, h3, h4⟩ :=
    deleteImageFrom_spec responses history generationId provider (MAX_RETRIES + 1) 0 (by omega)
  refine ⟨?_, ?_, h4⟩
  · refine h2.trans ?_
    simp [MAX_RETRIES]
  · intro k hk
    simpa using h3 k hk

/-- Witness for C7: with a server that always answers 404, the first
attempt is followed by a retry (so the retry hypothesis is dischargeable)
and the 404 precondition holds concretely. -/
theorem deleteImage_retry_only_on_404_witness :
    0 + 1 < (deleteImageRun (fun _ => DeleteResponse.fail 404) [] "g1"
        ProviderKey.replicate).attempts ∧
    (fun _ : Nat => DeleteResponse.fail 404) 0 = DeleteResponse.fail 404 := by
  have main := deleteImage_retry_only_on_404 (fun _ => DeleteResponse.fail 404) [] "g1"
    ProviderKey.replicate
  have e0 : deleteImageRun (fun _ => DeleteResponse.fail 404) [] "g1"
      ProviderKey.replicate = ⟨[], 4, 3 * RETRY_DELAY⟩ := by
    rw [deleteImageRun]
    rw [deleteImageFrom_retry _ _ _ _ 0 rfl (by simp [MAX_RETRIES])]
    rw [deleteImageFrom_retry _ _ _ _ 1 rfl (by simp [MAX_RETRIES])]
    rw [deleteImageFrom_retry _ _ _ _ 2 rfl (by simp [MAX_RETRIES])]
    rw [deleteImageFrom_stop _ _ _ _ 3 404 rfl (by simp [MAX_RETRIES])]
    simp [RETRY_DELAY]
  have hretried : 0 + 1 < (deleteImageRun (fun _ => DeleteResponse.fail 404) [] "g1"
      ProviderKey.replicate).attempts := by
    rw [e0]
    simp
  exact ⟨hretried, main.2.1 0 hretried⟩

/-! ## C5: deleteImage local update -/

/-- `deleteImage`'s local update distributes over list append. -/
theorem deleteImageLocal_append (l₁ l₂ : List GenerationHistoryEntry)
    (generationId : String) (p : ProviderKey) :
    deleteImageLocal (l₁ ++ l₂) generationId p =
      deleteImageLocal l₁ generationId p ++ deleteImageLocal l₂ generationId p := by
  simp [deleteImageLocal]

/-- Entries whose id differs from the target are untouched by
`deleteImage`'s local update. -/
theorem deleteImageLocal_no_match (generationId : String) (p : ProviderKey) :
    ∀ l : List GenerationHistoryEntry, (∀ e ∈ l, e.id ≠ generationId) →
      deleteImageLocal l generationId p = l := by
  intro l
  induction l with
  | nil => intro _; rfl
  | cons e t ih =>
    intro h
    have he : (e.id == generationId) = false := by
      simpa using h e (List.mem_cons_self e t)
    simp only [deleteImageLocal, List.map_cons, List.filterMap_cons, he] at *
    simp only [Bool.false_eq_true, if_false, id]
    rw [ih (fun x hx => h x (List.mem_cons_of_mem e hx))]

/-- Counting images of the targeted provider against the filter that
removes them: the kept and removed images partition the list. -/
theorem filter_bne_length (l : List MediaResult) (p : ProviderKey) :
    (l.filter (fun img => img.provider != p)).length +
      l.countP (fun img => img.provider == p) = l.length := by
  induction l with
  | nil => rfl
  | cons a t ih =>
    by_cases h : a.provider = p
    · simp [List.filter_cons, List.countP_cons, h, ih]
      omega
    · simp [List.filter_cons, List.countP_cons, h, ih]
      omega

/-- Splitting off the head entry when its id matches the target: the
filtered entry is kept only when images remain. -/
theorem deleteImageLocal_cons_match (entry : GenerationHistoryEntry)
    (post : List GenerationHistoryEntry) (p : ProviderKey) :
    deleteImageLocal (entry :: post) entry.id p =
      (if (entry.images.filter (fun img => img.provider != p)).length > 0 then
        [{ entry with images := entry.images.filter (fun img => img.provider != p) }]
      else []) ++ deleteImageLocal post entry.id p := by
  simp only [deleteImageLocal, List.map_cons, List.filterMap_cons, beq_self_eq_true, if_true]
  by_cases hpos : (entry.images.filter (fun img => img.provider != p)).length > 0
  · simp [hpos]
  · simp [hpos]

/-- C5: For `deleteImage(generationId, provider)` whose server delete
succeeded, the local update removes the whole entry when the targeted
entry's only image belongs to the targeted provider, and removes exactly
the targeted image (keeping the entry) when the entry has more than one
image, one per provider. -/
theorem deleteImage_local_entry_cases (pre post : List GenerationHistoryEntry)
    (entry : GenerationHistoryEntry) (p : ProviderKey)
    (hpre : ∀ e ∈ pre, e.id ≠ entry.id) (hpost : ∀ e ∈ post, e.id ≠ entry.id) :
    (entry.images.map MediaResult.provider = [p] →
      deleteImageLocal (pre ++ entry :: post) entry.id p = pre ++ post) ∧
    (1 < entry.images.length → p ∈ entry.images.map MediaResult.provider →
      (entry.images.map MediaResult.provider).Nodup →
      deleteImageLocal (pre ++ entry :: post) entry.id p =
        pre ++ { entry with images := entry.images.filter (fun img => img.provider != p) } ::
          post ∧
      (entry.images.filter (fun img => img.provider != p)).length + 1 =
        entry.images.length) := by
  have hsplit : deleteImageLocal (pre ++ entry :: post) entry.id p =
      deleteImageLocal pre entry.id p ++ deleteImageLocal (entry :: post) entry.id p :=
    deleteImageLocal_append pre (entry :: post) entry.id p
  have hpre2 : deleteImageLocal pre entry.id p = pre :=
    deleteImageLocal_no_match entry.id p pre hpre
  have hpost2 : deleteImageLocal post entry.id p = post :=
    deleteImageLocal_no_match entry.id p post hpost
  have hcons := deleteImageLocal_cons_match entry post p
  rw [hpost2] at hcons
  constructor
  · intro hone
    obtain ⟨img, himg⟩ : ∃ img, entry.images = [img] := by
      cases he : entry.images with
      | nil => rw [he] at hone; simp at hone
      | cons a t =>
        rw [he] at hone
        simp only [List.map_cons, List.cons.injEq] at hone
        cases t with
        | nil => exact ⟨a, rfl⟩
        | cons b t2 => simp at hone
    have hprov : img.provider = p := by
      rw [himg] at hone
      simpa using hone
    have hempty : entry.images.filter (fun img => img.provider != p) = [] := by
      rw [himg, List.filter_cons]
      simp [hprov]
    rw [hsplit, hpre2, hcons, hempty]
    simp
  · intro hlen hmem hnodup
    have hcount : entry.images.countP (fun img => img.provider == p) = 1 := by
      have h1 : List.count p (entry.images.map MediaResult.provider) = 1 :=
        List.count_eq_one_of_mem hnodup hmem
      have h2 : List.count p (entry.images.map MediaResult.provider) =
          entry.images.countP (fun img => img.provider == p) := by
        rw [List.count, List.countP_map]
        rfl
      omega
    have hflen := filter_bne_length entry.images p
    have hkept : (entry.images.filter (fun img => img.provider != p)).length + 1 =
        entry.images.length := by omega
    refine ⟨?_, hkept⟩
    have hpos : (entry.images.filter (fun img => img.provider != p)).length > 0 := by
      omega
    rw [hsplit, hpre2, hcons, if_pos hpos]
    simp

/-- Witness for C5: deleting replicate's image from a two-image entry keeps
the entry with only the openai image. -/
theorem deleteImage_local_entry_cases_witness :
    deleteImageLocal
        [⟨"g1", "fox", 5,
          [⟨ProviderKey.replicate, some "a", "m", MediaType.image, none, none⟩,
            ⟨ProviderKey.openai, some "b", "m", MediaType.image, none, none⟩],
          [], [], []⟩] "g1" ProviderKey.replicate =
      [⟨"g1", "fox", 5,
        [⟨ProviderKey.openai, some "b", "m", MediaType.image, none, none⟩],
        [], [], []⟩] := by
  have h := (deleteImage_local_entry_cases [] []
    ⟨"g1", "fox", 5,
      [⟨ProviderKey.replicate, some "a", "m", MediaType.image, none, none⟩,
        ⟨ProviderKey.openai, some "b", "m", MediaType.image, none, none⟩],
      [], [], []⟩ ProviderKey.replicate (by simp) (by simp)).2
    (by decide) (by decide) (by decide)
  exact h.1.trans (by decide)

/-! ## C4: duplicate-identifier finalize -/

/-- `findIndex` on a list whose first match is the head of the suffix. -/
theorem findIdx?_append_first {α : Type} (q : α → Bool) (e : α) (post : List α)
    (hq : q e = true) :
    ∀ (pre : List α), (∀ x ∈ pre, q x = false) → ∀ i,
      List.findIdx? q (pre ++ e :: post) i = some (i + pre.length) := by
  intro pre
  induction pre with
  | nil =>
    intro _ i
    simp [List.findIdx?, hq]
  | cons a t ih =>
    intro h i
    have ha : q a = false := h a (List.mem_cons_self a t)
    have hstep := ih (fun x hx => h x (List.mem_cons_of_mem a hx)) (i + 1)
    simp only [List.cons_append, List.findIdx?, ha, Bool.false_eq_true, if_false,
      List.append_eq]
    rw [hstep]
    congr 1
    simp only [List.length_cons]
    omega

/-- Indexing just past a prefix lands on the head of the suffix. -/
theorem get?_append_cons {α : Type} (x : α) (post : List α) :
    ∀ pre : List α, (pre ++ x :: post).get? pre.length = some x := by
  intro pre
  induction pre with
  | nil => rfl
  | cons a t ih =>
    simp only [List.cons_append, List.length_cons, List.get?]
    exact ih

/-- Setting the slot just past a prefix replaces the head of the suffix. -/
theorem set_append_cons {α : Type} (x y : α) (post : List α) :
    ∀ pre : List α, (pre ++ x :: post).set pre.length y = pre ++ y :: post := by
  intro pre
  induction pre with
  | nil => rfl
  | cons a t ih =>
    simp only [List.cons_append, List.length_cons, List.set, List.append_eq]
    rw [ih]

/-- C4: When a finalize attempt targets an identifier already present in
the history list, the existing entry is replaced by the new entry exactly
when the new entry has strictly more images; otherwise the history list is
left unchanged. -/
theorem saveGeneration_duplicate_id (current : CurrentGeneration)
    (pre post : List GenerationHistoryEntry) (existing : GenerationHistoryEntry)
    (gid : String) (hid : current.id = some gid) (hgid : gid ≠ "")
    (hexist : existing.id = gid) (hpre : ∀ e ∈ pre, e.id ≠ gid)
    (hne : current.images.length > 0)
    (hsome : (imageArrayOf current.images).any (fun img => img.content.isSome) = true) :
    ((imageArrayOf current.images).length > existing.images.length →
      (saveGenerationToHistory current (pre ++ existing :: post)).history =
        pre ++ mkHistoryEntry current gid (imageArrayOf current.images) :: post) ∧
    ((imageArrayOf current.images).length ≤ existing.images.length →
      (saveGenerationToHistory current (pre ++ existing :: post)).history =
        pre ++ existing :: post) := by
  have hsave : (saveGenerationToHistory current (pre ++ existing :: post)).history =
      updateHistory (pre ++ existing :: post)
        (mkHistoryEntry current gid (imageArrayOf current.images)) := by
    simp only [saveGenerationToHistory]
    rw [hid]
    simp only [if_pos (And.intro hgid hne), hsome, if_true]
  have hfind : List.findIdx?
      (fun e => e.id == (mkHistoryEntry current gid (imageArrayOf current.images)).id)
      (pre ++ existing :: post) 0 = some pre.length := by
    have := findIdx?_append_first
      (fun e => e.id == (mkHistoryEntry current gid (imageArrayOf current.images)).id)
      existing post (by simp [mkHistoryEntry, hexist]) pre
      (fun x hx => by simpa [mkHistoryEntry] using hpre x hx) 0
    simpa using this
  have hget := get?_append_cons existing post pre
  constructor
  · intro hgt
    rw [hsave]
    unfold updateHistory
    rw [hfind]
    simp only [hget]
    rw [if_pos (by simpa [mkHistoryEntry] using hgt)]
    exact set_append_cons existing (mkHistoryEntry current gid (imageArrayOf current.images))
      post pre
  · intro hle
    rw [hsave]
    unfold updateHistory
    rw [hfind]
    simp only [hget]
    rw [if_neg (by simp [mkHistoryEntry]; omega)]

/-- Witness for C4: a one-image finalize against an existing three-image
entry of the same id leaves the history unchanged. -/
theorem saveGeneration_duplicate_id_witness :
    (saveGenerationToHistory
        ⟨some "db1", "fox", 9,
          [(ProviderKey.replicate,
            ⟨ProviderKey.replicate, some "x", "m", MediaType.image, none, none⟩)],
          [], [], []⟩
        [⟨"db1", "fox", 5,
          [⟨ProviderKey.replicate, some "a", "m", MediaType.image, none, none⟩,
            ⟨ProviderKey.openai, some "b", "m", MediaType.image, none, none⟩,
            ⟨ProviderKey.openai, some "c", "m", MediaType.image, none, none⟩],
          [], [], []⟩]).history =
      [⟨"db1", "fox", 5,
        [⟨ProviderKey.replicate, some "a", "m", MediaType.image, none, none⟩,
          ⟨ProviderKey.openai, some "b", "m", MediaType.image, none, none⟩,
          ⟨ProviderKey.openai, some "c", "m", MediaType.image, none, none⟩],
        [], [], []⟩] := by
  have h := (saveGeneration_duplicate_id
    ⟨some "db1", "fox", 9,
      [(ProviderKey.replicate,
        ⟨ProviderKey.replicate, some "x", "m", MediaType.image, none, none⟩)],
      [], [], []⟩
    []
    []
    ⟨"db1", "fox", 5,
      [⟨ProviderKey.replicate, some "a", "m", MediaType.image, none, none⟩,
        ⟨ProviderKey.openai, some "b", "m", MediaType.image, none, none⟩,
        ⟨ProviderKey.openai, some "c", "m", MediaType.image, none, none⟩],
      [], [], []⟩
    "db1" rfl (by decide) rfl (by simp) (by decide) (by decide)).2 (by decide)
  simpa using h

/-! ## C9: the temporary id is replaced at most once -/

/-- One settlement from the temporary id: the id becomes the carried
server-issued generation id if the response carries a truthy one, and stays
the temporary id otherwise. -/
theorem applySettle_id_of_temp (t : String) (ts : Nat) (f : ProviderKey → String)
    (cur : CurrentGeneration) (p : ProviderKey) (o : ProviderOutcome)
    (h : cur.id = some t) :
    (applySettle t ts f cur p o).1.id = some (o.carriedId.getD t) := by
  cases o with
  | ok image imagePath imageUrl generationId completionTime =>
    cases generationId with
    | none => simp [applySettle, ProviderOutcome.carriedId, strTruthy, h]
    | some g =>
      by_cases hg : g = ""
      · subst hg
        simp [applySettle, ProviderOutcome.carriedId, strTruthy, h]
      · simp [applySettle, ProviderOutcome.carriedId, strTruthy, hg, h]
  | err message errorType => simp [applySettle, ProviderOutcome.carriedId, h]

/-- Settling a whole arrival list from the temporary id: the final id is the
first carried generation id, or the temporary id when no response carried
one. -/
theorem settleAll_id_first_carried (t : String) (ts : Nat) (f : ProviderKey → String)
    (arrivals : List (ProviderKey × ProviderOutcome)) :
    ∀ cur, cur.id = some t →
      (∀ a ∈ arrivals, ∀ g, a.2.carriedId = some g → g ≠ t) →
      (settleAll t ts f cur arrivals).id =
        some ((arrivals.findSome? (fun a => a.2.carriedId)).getD t) := by
  induction arrivals with
  | nil =>
    intro cur h _
    simpa [settleAll_nil, List.findSome?] using h
  | cons a l ih =>
    intro cur h hfresh
    rw [settleAll_cons]
    have hstep := applySettle_id_of_temp t ts f cur a.1 a.2 h
    cases hc : a.2.carriedId with
    | none =>
      rw [hc] at hstep
      simp only [Option.getD_none] at hstep
      rw [ih _ hstep (fun x hx => hfresh x (List.mem_cons_of_mem a hx))]
      rw [List.findSome?_cons]
      simp [hc]
    | some g =>
      rw [hc] at hstep
      simp only [Option.getD_some] at hstep
      have hg : g ≠ t := hfresh a (List.mem_cons_self a l) g hc
      rw [settleAll_id_of_ne t ts f l _ (by rw [hstep]; simpa using hg), hstep]
      rw [List.findSome?_cons]
      simp [hc]

/-- C9: Within one generation attempt starting from the temporary client
id, the id is replaced by the first provider response carrying a
server-issued generation id, and once the id differs from the temporary id
no later response changes it again. -/
theorem inflight_id_reconciled_once (t : String) (ts : Nat)
    (f : ProviderKey → String) (cur : CurrentGeneration)
    (arrivals : List (ProviderKey × ProviderOutcome))
    (hstart : cur.id = some t)
    (hfresh : ∀ a ∈ arrivals, ∀ g, a.2.carriedId = some g → g ≠ t) :
    (settleAll t ts f cur arrivals).id =
      some ((arrivals.findSome? (fun a => a.2.carriedId)).getD t) ∧
    (∀ l₁ l₂, arrivals = l₁ ++ l₂ →
      (settleAll t ts f cur l₁).id ≠ some t →
      (settleAll t ts f cur arrivals).id = (settleAll t ts f cur l₁).id) := by
  refine ⟨settleAll_id_first_carried t ts f arrivals cur hstart hfresh, ?_⟩
  intro l₁ l₂ hsplit hne
  rw [hsplit, settleAll_append]
  exact settleAll_id_of_ne t ts f l₂ _ hne

/-- Witness for C9: two responses both carrying server ids; the id takes
the first one and the second settlement leaves it unchanged. -/
theorem inflight_id_reconciled_once_witness :
    (settleAll "temp-1-a" 1 (fun _ => "m")
        ⟨some "temp-1-a", "fox", 1, [], [], [], []⟩
        [(ProviderKey.replicate, .ok (some "i1") none none (some "db1") 2),
          (ProviderKey.openai, .ok (some "i2") none none (some "db2") 3)]).id =
      some "db1" := by
  have h := (inflight_id_reconciled_once "temp-1-a" 1 (fun _ => "m")
    ⟨some "temp-1-a", "fox", 1, [], [], [], []⟩
    [(ProviderKey.replicate, .ok (some "i1") none none (some "db1") 2),
      (ProviderKey.openai, .ok (some "i2") none none (some "db2") 3)]
    rfl (by decide)).1
  exact h.trans (by decide)

/-! ## C8: when the per-provider timing record is written -/

/-- The timing-write log counts, per provider, exactly the ok settlements of
that provider: the success branch of `generateImage` assigns
`timings[provider]` once and the failure branch never does. -/
theorem settleLog_count (t : String) (ts : Nat) (f : ProviderKey → String)
    (arrivals : List (ProviderKey × ProviderOutcome)) :
    ∀ cur (p : ProviderKey),
      (settleAllLog t ts f cur arrivals).2.count p =
        arrivals.countP (fun a => a.1 == p && a.2.isOk) := by
  induction arrivals with
  | nil => intro cur p; rfl
  | cons a l ih =>
    intro cur p
    rw [settleLog_cons, List.count_append, ih]
    rw [List.countP_cons]
    cases ho : a.2 with
    | ok image imagePath imageUrl generationId completionTime =>
      by_cases hp : a.1 = p
      · simp [applySettle, ho, hp, ProviderOutcome.isOk, List.count_cons]
        omega
      · simp [applySettle, ho, hp, ProviderOutcome.isOk, List.count_cons]
    | err message errorType =>
      simp [applySettle, ho, ProviderOutcome.isOk]

/-- Counterexample to C8 as stated: a provider that fails never gets its
timing record mutated — zero writes, and the slot keeps only the creation
start time — contradicting "mutated exactly once on completion or
failure". -/
theorem provider_timing_not_written_on_failure :
    (settleAllLog "temp-0-a" 0 (fun _ => "m")
        ⟨some "temp-0-a", "fox", 0, [], [], initialTimings [ProviderKey.replicate] 0, []⟩
        [(ProviderKey.replicate, .err "boom" "E")]).2.count ProviderKey.replicate = 0 ∧
    (settleAll "temp-0-a" 0 (fun _ => "m")
        ⟨some "temp-0-a", "fox", 0, [], [], initialTimings [ProviderKey.replicate] 0, []⟩
        [(ProviderKey.replicate, .err "boom" "E")]).timings =
      [(ProviderKey.replicate, ⟨0, none, none⟩)] := by
  constructor
  · rfl
  · rfl

/-- C8 (amended): within an attempt in which every provider settles at most
once, each provider's timing record is mutated at most once after creation,
and exactly once precisely when that provider's request succeeded; a failed
provider's timing is never written. -/
theorem provider_timing_written_iff_ok (t : String) (ts : Nat)
    (f : ProviderKey → String) (cur : CurrentGeneration)
    (arrivals : List (ProviderKey × ProviderOutcome)) (p : ProviderKey)
    (h : (arrivals.map Prod.fst).Nodup) :
    (settleAllLog t ts f cur arrivals).2.count p ≤ 1 ∧
    ((settleAllLog t ts f cur arrivals).2.count p = 1 ↔
      ∃ a ∈ arrivals, a.1 = p ∧ a.2.isOk = true) := by
  rw [settleLog_count]
  have hle : arrivals.countP (fun a => a.1 == p && a.2.isOk) ≤
      arrivals.countP (fun a => a.1 == p) := by
    apply List.countP_mono_left
    intro a _ ha
    simp only [Bool.and_eq_true] at ha
    exact ha.1
  have hkey : arrivals.countP (fun a => a.1 == p) = (arrivals.map Prod.fst).count p := by
    rw [List.count, List.countP_map]
    rfl
  have hone : (arrivals.map Prod.fst).count p ≤ 1 := List.nodup_iff_count_le_one.mp h p
  refine ⟨by omega, ?_⟩
  constructor
  · intro heq
    have : 0 < arrivals.countP (fun a => a.1 == p && a.2.isOk) := by omega
    obtain ⟨a, ha, hpa⟩ := List.countP_pos_iff.mp this
    simp only [Bool.and_eq_true, beq_iff_eq] at hpa
    exact ⟨a, ha, hpa.1, hpa.2⟩
  · intro ⟨a, ha, hpa, hok⟩
    have : 0 < arrivals.countP (fun a => a.1 == p && a.2.isOk) :=
      List.countP_pos_iff.mpr ⟨a, ha, by simp [hpa, hok]⟩
    omega

/-- Witness for C8 (amended): one successful replicate settlement writes
replicate's timing exactly once. -/
theorem provider_timing_written_iff_ok_witness :
    (settleAllLog "temp-0-a" 0 (fun _ => "m")
        ⟨some "temp-0-a", "fox", 0, [], [], initialTimings [ProviderKey.replicate] 0, []⟩
        [(ProviderKey.replicate, .ok (some "i") none none (some "db1") 4)]).2.count
      ProviderKey.replicate = 1 := by
  have h := (provider_timing_written_iff_ok "temp-0-a" 0 (fun _ => "m")
    ⟨some "temp-0-a", "fox", 0, [], [], initialTimings [ProviderKey.replicate] 0, []⟩
    [(ProviderKey.replicate, .ok (some "i") none none (some "db1") 4)]
    ProviderKey.replicate (by decide)).2
  exact h.mpr ⟨(ProviderKey.replicate, .ok (some "i") none none (some "db1") 4),
    List.mem_singleton_self _, rfl, rfl⟩


/-! ## Reduction lemmas for saveGenerationToHistory -/

/-- Finalizing with a null in-flight id changes nothing. -/
theorem saveGeneration_id_none (current : CurrentGeneration)
    (history : List GenerationHistoryEntry) (hid : current.id = none) :
    saveGenerationToHistory current history = ⟨history, current, none⟩ := by
  unfold saveGenerationToHistory
  rw [hid]

/-- Finalizing with an empty image map stores nothing and does **not**
reset the in-flight record. -/
theorem saveGeneration_empty_images (current : CurrentGeneration)
    (history : List GenerationHistoryEntry) (s : String) (hid : current.id = some s)
    (himg : current.images = []) :
    saveGenerationToHistory current history = ⟨history, current, none⟩ := by
  unfold saveGenerationToHistory
  rw [hid]
  dsimp only
  rw [if_neg (by simp [himg])]

/-- Finalizing a truthy-id, non-empty record whose images all lack content
stores nothing but resets the record. -/
theorem saveGeneration_no_content (current : CurrentGeneration)
    (history : List GenerationHistoryEntry) (s : String) (hid : current.id = some s)
    (hs : s ≠ "") (himg : current.images.length > 0)
    (hnone : (imageArrayOf current.images).any (fun img => img.content.isSome) = false) :
    saveGenerationToHistory current history = ⟨history, emptyCurrentGeneration, none⟩ := by
  unfold saveGenerationToHistory
  rw [hid]
  dsimp only
  rw [if_pos (And.intro hs himg), hnone]
  rfl

/-- Finalizing a truthy-id, non-empty record with at least one contentful
image stores the normalized entry and resets the record. -/
theorem saveGeneration_stores (current : CurrentGeneration)
    (history : List GenerationHistoryEntry) (s : String) (hid : current.id = some s)
    (hs : s ≠ "") (himg : current.images.length > 0)
    (hsome : (imageArrayOf current.images).any (fun img => img.content.isSome) = true) :
    saveGenerationToHistory current history =
      ⟨updateHistory history (mkHistoryEntry current s (imageArrayOf current.images)),
        emptyCurrentGeneration,
        some (mkHistoryEntry current s (imageArrayOf current.images))⟩ := by
  unfold saveGenerationToHistory
  rw [hid]
  dsimp only
  rw [if_pos (And.intro hs himg), hsome]
  rfl

/-! ## C6: controller state after a run settles -/

/-- Reduction of `startGenerationRun` past its validation guards. -/
theorem startGenerationRun_main (st : HookState) (prompt : String)
    (providers : List ProviderKey) (modelIdOf : ProviderKey → String)
    (timestamp : Nat) (suffix : String)
    (arrivals : List (ProviderKey × ProviderOutcome))
    (hprov : providers ≠ []) (hgen : st.isGenerating = false) :
    startGenerationRun st prompt providers modelIdOf timestamp suffix arrivals =
      ⟨⟨false,
          (saveGenerationToHistory
            (settleAll (tempClientIdOf timestamp suffix) timestamp modelIdOf
              ⟨some (tempClientIdOf timestamp suffix), prompt, timestamp, [], [],
                initialTimings providers timestamp, []⟩ arrivals)
            (saveGenerationToHistory st.current st.history).history).current,
          (saveGenerationToHistory
            (settleAll (tempClientIdOf timestamp suffix) timestamp modelIdOf
              ⟨some (tempClientIdOf timestamp suffix), prompt, timestamp, [], [],
                initialTimings providers timestamp, []⟩ arrivals)
            (saveGenerationToHistory st.current st.history).history).history⟩,
        true, none, providers,
        (saveGenerationToHistory
          (settleAll (tempClientIdOf timestamp suffix) timestamp modelIdOf
            ⟨some (tempClientIdOf timestamp suffix), prompt, timestamp, [], [],
              initialTimings providers timestamp, []⟩ arrivals)
          (saveGenerationToHistory st.current st.history).history).savedEntry⟩ := by
  unfold startGenerationRun
  rw [if_neg (by simpa [List.length_eq_zero] using hprov), if_neg (by simp [hgen])]

/-- The temporary client id is a non-empty string. -/
theorem tempClientIdOf_ne_empty (timestamp : Nat) (suffix : String) :
    tempClientIdOf timestamp suffix ≠ "" := by
  intro h
  have hlen := congrArg String.length h
  simp only [tempClientIdOf, String.length_append] at hlen
  rw [show ("temp-").length = 5 from rfl, show ("-").length = 1 from rfl,
    show ("" : String).length = 0 from rfl] at hlen
  omega

/-- Settling preserves truthiness of the in-flight id: the id only ever
changes to a truthy server-issued generation id. -/
theorem settleAll_id_truthy (t : String) (ts : Nat) (f : ProviderKey → String)
    (arrivals : List (ProviderKey × ProviderOutcome)) :
    ∀ cur, strTruthy cur.id = true → strTruthy (settleAll t ts f cur arrivals).id = true := by
  induction arrivals with
  | nil => intro cur h; exact h
  | cons a l ih =>
    intro cur h
    rw [settleAll_cons]
    refine ih _ ?_
    cases a.2 with
    | ok image imagePath imageUrl generationId completionTime =>
      simp only [applySettle]
      split
      · next hc => exact hc.1
      · exact h
    | err message errorType => exact h

/-- `recordSet` never produces the empty record. -/
theorem recordSet_ne_nil {α : Type} (m : ProviderRecord α) (k : ProviderKey) (v : α) :
    recordSet m k v ≠ [] := by
  unfold recordSet
  split
  · next hany =>
    obtain ⟨kv, hkv, _⟩ := List.any_eq_true.mp hany
    cases m with
    | nil => cases hkv
    | cons a t => simp
  · simp

/-- The image map after settling is empty exactly when it started empty and
every settlement failed: each ok settlement stores an image under its own
provider key. -/
theorem settleAll_images_empty_iff (t : String) (ts : Nat) (f : ProviderKey → String)
    (arrivals : List (ProviderKey × ProviderOutcome)) :
    ∀ cur, ((settleAll t ts f cur arrivals).images = [] ↔
      cur.images = [] ∧ ∀ a ∈ arrivals, a.2.isOk = false) := by
  induction arrivals with
  | nil =>
    intro cur
    simp [settleAll_nil]
  | cons a l ih =>
    intro cur
    rw [settleAll_cons, ih]
    cases ho : a.2 with
    | ok image imagePath imageUrl generationId completionTime =>
      have hne : (applySettle t ts f cur a.1
          (ProviderOutcome.ok image imagePath imageUrl generationId
            completionTime)).1.images ≠ [] := by
        simp only [applySettle]
        apply recordSet_ne_nil
      constructor
      · intro ⟨h1, _⟩
        exact absurd h1 hne
      · intro ⟨_, hall⟩
        have hthis := hall a (List.mem_cons_self a l)
        rw [ho] at hthis
        simp [ProviderOutcome.isOk] at hthis
    | err message errorType =>
      have himg : (applySettle t ts f cur a.1
          (ProviderOutcome.err message errorType)).1.images = cur.images := rfl
      rw [himg]
      constructor
      · intro ⟨h1, h2⟩
        refine ⟨h1, fun x hx => ?_⟩
        rcases List.mem_cons.mp hx with hx | hx
        · rw [hx, ho]; rfl
        · exact h2 x hx
      · intro ⟨h1, h2⟩
        exact ⟨h1, fun x hx => h2 x (List.mem_cons_of_mem a hx)⟩

/-- Counterexample to C6 as stated: when the only provider fails, the
settled run leaves the generating flag false but does **not** clear the
in-flight record — it still holds the temporary client id. -/
theorem inflight_record_kept_on_total_failure :
    (startGenerationRun ⟨false, emptyCurrentGeneration, []⟩ "a red fox"
        [ProviderKey.replicate] (fun _ => "flux") 100 "abc"
        [(ProviderKey.replicate, .err "timeout" "TimeoutError")]).state.current.id =
      some "temp-100-abc" := by
  rfl

/-- C6 (amended): after every `startGeneration` call that passes validation
settles, the generating flag is false, and the in-flight record is reset to
the empty record exactly when at least one provider stored an image; when
every provider failed, the record is left holding its identifier. -/
theorem startGeneration_settles_to_idle (st : HookState) (prompt : String)
    (providers : List ProviderKey) (modelIdOf : ProviderKey → String)
    (timestamp : Nat) (suffix : String)
    (arrivals : List (ProviderKey × ProviderOutcome))
    (hgen : st.isGenerating = false) (hprov : providers ≠ []) :
    (startGenerationRun st prompt providers modelIdOf timestamp suffix arrivals).state.isGenerating
        = false ∧
    ((startGenerationRun st prompt providers modelIdOf timestamp suffix
        arrivals).state.current = emptyCurrentGeneration ↔
      ∃ a ∈ arrivals, a.2.isOk = true) := by
  rw [startGenerationRun_main st prompt providers modelIdOf timestamp suffix arrivals hprov hgen]
  dsimp only
  refine ⟨rfl, ?_⟩
  set tempId := tempClientIdOf timestamp suffix with htmp
  set cur0 : CurrentGeneration :=
    ⟨some tempId, prompt, timestamp, [], [], initialTimings providers timestamp, []⟩ with hcur0
  set curFinal := settleAll tempId timestamp modelIdOf cur0 arrivals with hcf
  have htruthy : strTruthy curFinal.id = true := by
    rw [hcf]
    refine settleAll_id_truthy tempId timestamp modelIdOf arrivals cur0 ?_
    simp [hcur0, strTruthy, htmp, tempClientIdOf_ne_empty timestamp suffix]
  obtain ⟨s, hs_id, hs_ne⟩ : ∃ s, curFinal.id = some s ∧ s ≠ "" := by
    cases hcfid : curFinal.id with
    | none => rw [hcfid] at htruthy; simp [strTruthy] at htruthy
    | some s =>
      rw [hcfid] at htruthy
      exact ⟨s, rfl, by simpa [strTruthy] using htruthy⟩
  have hiff := settleAll_images_empty_iff tempId timestamp modelIdOf arrivals cur0
  by_cases himg : curFinal.images = []
  · have hall : ∀ a ∈ arrivals, a.2.isOk = false := ((hiff).mp (by rw [← hcf]; exact himg)).2
    rw [saveGeneration_empty_images curFinal
      (saveGenerationToHistory st.current st.history).history s hs_id himg]
    dsimp only
    refine iff_of_false ?_ ?_
    · intro h
      rw [h] at hs_id
      simp [emptyCurrentGeneration] at hs_id
    · intro ⟨a, ha, hok⟩
      rw [hall a ha] at hok
      cases hok
  · have hpos : curFinal.images.length > 0 := by
      cases he : curFinal.images with
      | nil => exact absurd he himg
      | cons x xs => simp [he]
    have hcleared : (saveGenerationToHistory curFinal
        (saveGenerationToHistory st.current st.history).history).current =
        emptyCurrentGeneration := by
      cases hany : (imageArrayOf curFinal.images).any (fun img => img.content.isSome) with
      | true =>
        rw [saveGeneration_stores curFinal
          (saveGenerationToHistory st.current st.history).history s hs_id hs_ne hpos hany]
      | false =>
        rw [saveGeneration_no_content curFinal
          (saveGenerationToHistory st.current st.history).history s hs_id hs_ne hpos hany]
    refine iff_of_true hcleared ?_
    have hnall : ¬ ∀ a ∈ arrivals, a.2.isOk = false := by
      intro hall
      exact himg (by rw [hcf]; exact (hiff).mpr ⟨rfl, hall⟩)
    by_contra hne
    apply hnall
    intro a ha
    cases hh : a.2.isOk with
    | false => rfl
    | true => exact absurd ⟨a, ha, hh⟩ hne

/-- Witness for C6 (amended): a run with one successful provider resets the
in-flight record. -/
theorem startGeneration_settles_to_idle_witness :
    (startGenerationRun ⟨false, emptyCurrentGeneration, []⟩ "a red fox"
        [ProviderKey.replicate] (fun _ => "flux") 100 "abc"
        [(ProviderKey.replicate, .ok (some "img") none none (some "db1") 200)]).state.current =
      emptyCurrentGeneration := by
  have h := (startGeneration_settles_to_idle ⟨false, emptyCurrentGeneration, []⟩ "a red fox"
    [ProviderKey.replicate] (fun _ => "flux") 100 "abc"
    [(ProviderKey.replicate, .ok (some "img") none none (some "db1") 200)]
    rfl (by simp)).2
  exact h.mpr ⟨(ProviderKey.replicate, .ok (some "img") none none (some "db1") 200),
    List.mem_singleton_self _, rfl⟩

/-! ## C2: usable images in history entries -/

/-- Counterexample to C2 as stated: `loadSavedGenerations` performs no
filtering, so a persisted generation with zero media items (which the
server can return: the generation row is created before the provider call,
which may then fail) is rehydrated into a history entry with no usable
image at all. -/
theorem rehydrated_entry_without_usable_image :
    ∃ e ∈ loadSavedGenerations [⟨"g1", "a red fox", 5, []⟩], e.images = [] := by
  refine ⟨convertGeneration ⟨"g1", "a red fox", 5, []⟩, ?_, rfl⟩
  decide

/-- The entry stored by a finalize always contains an image with non-null
content (the `imageArray.some((img) => img.content !== null)` guard). -/
theorem savedEntry_has_content (current : CurrentGeneration)
    (history : List GenerationHistoryEntry) (e : GenerationHistoryEntry)
    (h : (saveGenerationToHistory current history).savedEntry = some e) :
    ∃ img ∈ e.images, img.content.isSome = true := by
  unfold saveGenerationToHistory at h
  cases hc : current.id with
  | none =>
    rw [hc] at h
    simp at h
  | some s =>
    rw [hc] at h
    dsimp only at h
    by_cases h1 : s ≠ "" ∧ current.images.length > 0
    · rw [if_pos h1] at h
      cases hany : (imageArrayOf current.images).any (fun img => img.content.isSome) with
      | true =>
        rw [hany] at h
        simp only [if_true] at h
        obtain ⟨img, himg, hcontent⟩ := List.any_eq_true.mp hany
        refine ⟨img, ?_, hcontent⟩
        have he : e = mkHistoryEntry current s (imageArrayOf current.images) := by
          cases h
          rfl
        rw [he]
        exact himg
      | false =>
        rw [hany] at h
        simp at h
    · rw [if_neg h1] at h
      simp at h

/-- C2 (amended): every entry finalized from a fresh generation contains at
least one image with non-null content — in particular a generation in which
every provider failed adds nothing to history; rehydrated entries, by
contrast, are copied from the server response without filtering. -/
theorem fresh_history_entries_have_content (st : HookState) (prompt : String)
    (providers : List ProviderKey) (modelIdOf : ProviderKey → String)
    (timestamp : Nat) (suffix : String)
    (arrivals : List (ProviderKey × ProviderOutcome))
    (hclean : st.current = emptyCurrentGeneration) (hgen : st.isGenerating = false)
    (hprov : providers ≠ []) :
    (∀ entry,
      (startGenerationRun st prompt providers modelIdOf timestamp suffix arrivals).finalized =
        some entry → ∃ img ∈ entry.images, img.content.isSome = true) ∧
    ((∀ a ∈ arrivals, a.2.isOk = false) →
      (startGenerationRun st prompt providers modelIdOf timestamp suffix
        arrivals).state.history = st.history) := by
  rw [startGenerationRun_main st prompt providers modelIdOf timestamp suffix arrivals hprov hgen]
  dsimp only
  have hsave1 : saveGenerationToHistory st.current st.history = ⟨st.history, st.current, none⟩ :=
    saveGeneration_id_none st.current st.history (by rw [hclean]; rfl)
  rw [hsave1]
  dsimp only
  constructor
  · intro entry h
    exact savedEntry_has_content _ _ entry h
  · intro hall
    set tempId := tempClientIdOf timestamp suffix with htmp
    set cur0 : CurrentGeneration :=
      ⟨some tempId, prompt, timestamp, [], [], initialTimings providers timestamp, []⟩ with hcur0
    have himg : (settleAll tempId timestamp modelIdOf cur0 arrivals).images = [] :=
      (settleAll_images_empty_iff tempId timestamp modelIdOf arrivals cur0).mpr ⟨rfl, hall⟩
    have htruthy : strTruthy (settleAll tempId timestamp modelIdOf cur0 arrivals).id = true := by
      refine settleAll_id_truthy tempId timestamp modelIdOf arrivals cur0 ?_
      simp [hcur0, strTruthy, htmp, tempClientIdOf_ne_empty timestamp suffix]
    obtain ⟨s, hs_id⟩ : ∃ s, (settleAll tempId timestamp modelIdOf cur0 arrivals).id = some s := by
      cases hcfid : (settleAll tempId timestamp modelIdOf cur0 arrivals).id with
      | none => rw [hcfid] at htruthy; simp [strTruthy] at htruthy
      | some s => exact ⟨s, rfl⟩
    rw [saveGeneration_empty_images _ st.history s hs_id himg]

/-- Witness for C2 (amended): a clean controller in which the only provider
fails adds nothing to history. -/
theorem fresh_history_entries_have_content_witness :
    (startGenerationRun ⟨false, emptyCurrentGeneration, []⟩ "a red fox"
        [ProviderKey.replicate] (fun _ => "flux") 100 "abc"
        [(ProviderKey.replicate, .err "timeout" "TimeoutError")]).state.history = [] := by
  have h := (fresh_history_entries_have_content ⟨false, emptyCurrentGeneration, []⟩ "a red fox"
    [ProviderKey.replicate] (fun _ => "flux") 100 "abc"
    [(ProviderKey.replicate, .err "timeout" "TimeoutError")]
    rfl rfl (by simp)).2
  exact h (by decide)

/-! ## C1: length bound and provider-priority ordering of a finalized entry -/

/-- Invariant of the in-flight image map: every slot is keyed by a provider
from `S` and stores a result whose `provider` field is its own key. -/
def MapInv (S : List ProviderKey) (m : ProviderRecord MediaResult) : Prop :=
  ∀ kv ∈ m, kv.1 ∈ S ∧ kv.2.provider = kv.1

/-- Everything in `recordSet m k v` is either an original slot or the new
`(k, v)` slot. -/
theorem mem_recordSet {α : Type} (m : ProviderRecord α) (k : ProviderKey) (v : α)
    (kv : ProviderKey × α) (h : kv ∈ recordSet m k v) : kv ∈ m ∨ kv = (k, v) := by
  unfold recordSet at h
  split at h
  · obtain ⟨kv2, hkv2, heq⟩ := List.mem_map.mp h
    by_cases hk : (kv2.1 == k) = true
    · rw [if_pos hk] at heq
      right
      exact heq.symm
    · rw [if_neg hk] at heq
      left
      rw [← heq]
      exact hkv2
  · rcases List.mem_append.mp h with h | h
    · exact Or.inl h
    · right
      simpa using h

/-- The image map written by an ok settlement. -/
theorem applySettle_ok_images (t : String) (ts : Nat) (f : ProviderKey → String)
    (cur : CurrentGeneration) (p : ProviderKey)
    (image imagePath imageUrl generationId : Option String) (completionTime : Nat) :
    (applySettle t ts f cur p
        (.ok image imagePath imageUrl generationId completionTime)).1.images =
      recordSet cur.images p
        ⟨p, image, f p, MediaType.image, imagePath, imageUrl⟩ := by
  simp only [applySettle]
  split <;> rfl

/-- A settlement preserves the image-map invariant when its provider key is
drawn from `S`. -/
theorem MapInv_applySettle (S : List ProviderKey) (t : String) (ts : Nat)
    (f : ProviderKey → String) (cur : CurrentGeneration) (p : ProviderKey)
    (o : ProviderOutcome) (hm : MapInv S cur.images) (hp : p ∈ S) :
    MapInv S (applySettle t ts f cur p o).1.images := by
  cases o with
  | ok image imagePath imageUrl generationId completionTime =>
    rw [applySettle_ok_images]
    intro kv hkv
    rcases mem_recordSet cur.images p _ kv hkv with h | h
    · exact hm kv h
    · rw [h]
      exact ⟨hp, rfl⟩
  | err message errorType => exact hm

/-- Settling a whole arrival list whose keys are drawn from `S` preserves
the image-map invariant. -/
theorem MapInv_settleAll (S : List ProviderKey) (t : String) (ts : Nat)
    (f : ProviderKey → String) (arrivals : List (ProviderKey × ProviderOutcome)) :
    ∀ cur, MapInv S cur.images → (∀ a ∈ arrivals, a.1 ∈ S) →
      MapInv S (settleAll t ts f cur arrivals).images := by
  induction arrivals with
  | nil => intro cur hm _; exact hm
  | cons a l ih =>
    intro cur hm hkeys
    rw [settleAll_cons]
    exact ih _ (MapInv_applySettle S t ts f cur a.1 a.2 hm (hkeys a (List.mem_cons_self a l)))
      (fun x hx => hkeys x (List.mem_cons_of_mem a hx))

/-- A successful `recordGet` returns a stored slot. -/
theorem recordGet_eq_some {α : Type} (m : ProviderRecord α) (k : ProviderKey) (r : α)
    (h : recordGet m k = some r) : ∃ kv ∈ m, kv.1 = k ∧ kv.2 = r := by
  unfold recordGet at h
  cases hf : m.find? (fun kv => kv.1 == k) with
  | none => rw [hf] at h; cases h
  | some kv =>
    rw [hf] at h
    refine ⟨kv, List.mem_of_find?_eq_some hf, ?_, ?_⟩
    · simpa using List.find?_some hf
    · simpa using h
/-- `recordHas` guarantees `recordGet` succeeds. -/
theorem recordHas_get {α : Type} (m : ProviderRecord α) (k : ProviderKey)
    (h : recordHas m k = true) : ∃ r, recordGet m k = some r := by
  unfold recordHas at h
  have hsome : (m.find? (fun kv => kv.1 == k)).isSome = true :=
    List.find?_isSome.mpr (List.any_eq_true.mp h)
  unfold recordGet
  cases hf : m.find? (fun kv => kv.1 == k) with
  | none => rw [hf] at hsome; cases hsome
  | some kv => exact ⟨kv.2, rfl⟩

/-- Reading back the slots of a list of present keys returns results whose
provider fields are exactly those keys. -/
theorem filterMap_get_providers (m : ProviderRecord MediaResult) (S : List ProviderKey)
    (hm : MapInv S m) :
    ∀ l : List ProviderKey, (∀ p ∈ l, recordHas m p = true) →
      ((l.filterMap (fun p => recordGet m p)).map MediaResult.provider = l) := by
  intro l
  induction l with
  | nil => intro _; rfl
  | cons p t ih =>
    intro hl
    obtain ⟨r, hr⟩ := recordHas_get m p (hl p (List.mem_cons_self p t))
    have hprov : r.provider = p := by
      obtain ⟨kv, hkv, hk1, hk2⟩ := recordGet_eq_some m p r hr
      rw [← hk2, ← hk1]
      exact (hm kv hkv).2
    rw [List.filterMap_cons, hr]
    simp only [List.map_cons, hprov]
    rw [ih (fun x hx => hl x (List.mem_cons_of_mem p hx))]

/-- The finalized image array lists providers in exactly the filtered
priority order. -/
theorem imageArrayOf_providers (m : ProviderRecord MediaResult) (S : List ProviderKey)
    (hm : MapInv S m) :
    (imageArrayOf m).map MediaResult.provider =
      PROVIDER_ORDER.filter (fun p => recordHas m p) := by
  unfold imageArrayOf
  exact filterMap_get_providers m S hm _ (fun p hp => (List.mem_filter.mp hp).2)

/-- The entry stored by a finalize is the normalized entry built from the
in-flight record. -/
theorem savedEntry_eq (current : CurrentGeneration)
    (history : List GenerationHistoryEntry) (e : GenerationHistoryEntry)
    (h : (saveGenerationToHistory current history).savedEntry = some e) :
    ∃ s, current.id = some s ∧ e = mkHistoryEntry current s (imageArrayOf current.images) := by
  unfold saveGenerationToHistory at h
  cases hc : current.id with
  | none =>
    rw [hc] at h
    simp at h
  | some s =>
    rw [hc] at h
    dsimp only at h
    by_cases h1 : s ≠ "" ∧ current.images.length > 0
    · rw [if_pos h1] at h
      cases hany : (imageArrayOf current.images).any (fun img => img.content.isSome) with
      | true =>
        rw [hany] at h
        simp only [if_true] at h
        refine ⟨s, rfl, ?_⟩
        cases h
        rfl
      | false =>
        rw [hany] at h
        simp at h
    · rw [if_neg h1] at h
      simp at h

/-- C1: For every `startGeneration` call with a non-empty list of selected
providers, when all provider requests have settled and this attempt's entry
is finalized, the entry's image sequence has at most one image per selected
provider and is ordered by the fixed provider priority list — whatever the
arrival order of the responses. -/
theorem finalized_entry_bounded_and_ordered (st : HookState) (prompt : String)
    (providers : List ProviderKey) (modelIdOf : ProviderKey → String)
    (timestamp : Nat) (suffix : String)
    (arrivals : List (ProviderKey × ProviderOutcome)) (entry : GenerationHistoryEntry)
    (hprov : providers ≠ [])
    (harr : ∀ a ∈ arrivals, a.1 ∈ providers)
    (hfin : (startGenerationRun st prompt providers modelIdOf timestamp suffix
      arrivals).finalized = some entry) :
    entry.images.length ≤ providers.length ∧
    (entry.images.map MediaResult.provider).Sublist PROVIDER_ORDER := by
  by_cases hgen : st.isGenerating = true
  · exfalso
    unfold startGenerationRun at hfin
    rw [if_neg (by simpa [List.length_eq_zero] using hprov), if_pos hgen] at hfin
    simp at hfin
  · have hgen2 : st.isGenerating = false := by
      simpa using hgen
    rw [startGenerationRun_main st prompt providers modelIdOf timestamp suffix arrivals hprov
      hgen2] at hfin
    dsimp only at hfin
    obtain ⟨s, _, hentry⟩ := savedEntry_eq _ _ entry hfin
    set tempId := tempClientIdOf timestamp suffix with htmp
    set cur0 : CurrentGeneration :=
      ⟨some tempId, prompt, timestamp, [], [], initialTimings providers timestamp, []⟩ with hcur0
    set curFinal := settleAll tempId timestamp modelIdOf cur0 arrivals with hcf
    have hinv : MapInv providers curFinal.images := by
      rw [hcf]
      refine MapInv_settleAll providers tempId timestamp modelIdOf arrivals cur0 ?_ harr
      intro kv hkv
      cases hkv
    have himages : entry.images = imageArrayOf curFinal.images := by
      rw [hentry]
      rfl
    have hmapeq : (entry.images.map MediaResult.provider) =
        PROVIDER_ORDER.filter (fun p => recordHas curFinal.images p) := by
      rw [himages]
      exact imageArrayOf_providers curFinal.images providers hinv
    have hnodup : (PROVIDER_ORDER.filter (fun p => recordHas curFinal.images p)).Nodup :=
      (List.filter_sublist PROVIDER_ORDER).nodup (by decide)
    have hsubset : ∀ p ∈ PROVIDER_ORDER.filter (fun p => recordHas curFinal.images p),
        p ∈ providers := by
      intro p hp
      obtain ⟨r, hr⟩ := recordHas_get curFinal.images p (List.mem_filter.mp hp).2
      obtain ⟨kv, hkv, hk1, _⟩ := recordGet_eq_some curFinal.images p r hr
      rw [← hk1]
      exact (hinv kv hkv).1
    constructor
    · have hlen : entry.images.length =
          (PROVIDER_ORDER.filter (fun p => recordHas curFinal.images p)).length := by
        rw [← hmapeq, List.length_map]
      rw [hlen]
      exact (List.subperm_of_subset hnodup hsubset).length_le
    · rw [hmapeq]
      exact List.filter_sublist PROVIDER_ORDER

/-- Witness for C1: two providers settling out of priority order still give
a two-image entry listed [replicate, openai]. -/
theorem finalized_entry_bounded_and_ordered_witness :
    2 ≤ 2 ∧
    ([ProviderKey.replicate, ProviderKey.openai] : List ProviderKey).Sublist PROVIDER_ORDER := by
  have h := finalized_entry_bounded_and_ordered ⟨false, emptyCurrentGeneration, []⟩ "a red fox"
    [ProviderKey.replicate, ProviderKey.openai] (fun _ => "m") 100 "abc"
    [(ProviderKey.openai, .ok (some "i2") none none (some "db1") 300),
      (ProviderKey.replicate, .ok (some "i1") none none (some "db1") 400)]
    (mkHistoryEntry
      (settleAll "temp-100-abc" 100 (fun _ => "m")
        ⟨some "temp-100-abc", "a red fox", 100, [], [],
          initialTimings [ProviderKey.replicate, ProviderKey.openai] 100, []⟩
        [(ProviderKey.openai, .ok (some "i2") none none (some "db1") 300),
          (ProviderKey.replicate, .ok (some "i1") none none (some "db1") 400)])
      "db1"
      (imageArrayOf (settleAll "temp-100-abc" 100 (fun _ => "m")
        ⟨some "temp-100-abc", "a red fox", 100, [], [],
          initialTimings [ProviderKey.replicate, ProviderKey.openai] 100, []⟩
        [(ProviderKey.openai, .ok (some "i2") none none (some "db1") 300),
          (ProviderKey.replicate, .ok (some "i1") none none (some "db1") 400)]).images))
    (by simp) (by decide) (by decide)
  refine ⟨by omega, ?_⟩
  have hmap : ((mkHistoryEntry
      (settleAll "temp-100-abc" 100 (fun _ => "m")
        ⟨some "temp-100-abc", "a red fox", 100, [], [],
          initialTimings [ProviderKey.replicate, ProviderKey.openai] 100, []⟩
        [(ProviderKey.openai, .ok (some "i2") none none (some "db1") 300),
          (ProviderKey.replicate, .ok (some "i1") none none (some "db1") 400)])
      "db1"
      (imageArrayOf (settleAll "temp-100-abc" 100 (fun _ => "m")
        ⟨some "temp-100-abc", "a red fox", 100, [], [],
          initialTimings [ProviderKey.replicate, ProviderKey.openai] 100, []⟩
        [(ProviderKey.openai, .ok (some "i2") none none (some "db1") 300),
          (ProviderKey.replicate, .ok (some "i1") none none (some "db1") 400)]).images)).images.map
      MediaResult.provider) = [ProviderKey.replicate, ProviderKey.openai] := by decide
  rw [← hmap]
  exact h.2
